import Mathlib

/-!
The dynamic gRPC client of webb-server (`pkg/webb_server/client.go`).

A shallow embedding of the channel registry (`grpcChannels`, `NewGRPCClient`),
the call interceptor (`ClientInterceptor.UnaryInterceptor`) and the
reflection-driven method lookup (`GetGRPCMethod`).

Conventions of the embedding:

* Go maps are association lists read with `List.lookup`; the process-wide
  `grpcChannels` map is a function from endpoint to optional client.
* A Go call that can panic yields `Outcome.fault`; a returned `error` yields
  `Outcome.error` carrying the text of `err.Error()`.
* Everything the transport library decides is a parameter: loading
  credentials, setting up a client connection and whether the endpoint can be
  reached in time are the fields of `DialEnv`, the reflection stream and the
  decoding of its bytes the fields of `ReflectEnv`, the generic invoke and the
  unary invoker are function arguments. Every theorem holds for every
  behaviour of the remote side.
* Calls are sequential; `channelMutex` is not modelled.
* Process state that the code changes is the `World`: the registry, the log of
  dial attempts and the connections that have been closed.
-/

namespace WebbServer

/-! ## Values and maps -/

/-- Go `interface{}` values that occur in `options`, `uriInfo` and payloads. -/
inductive Value where
  | null
  | str (s : String)
  | bool (b : Bool)
  | int (n : Int)
  | strMap (m : List (String × String))
  deriving DecidableEq, Repr

/-- Go `map[string]T`, as an association list; `m[k]` is `List.lookup k m`. -/
abbrev GoMap (α : Type) := List (String × α)

/-- Result of running Go code: a value, a returned `error`, or a panic. -/
inductive Outcome (α : Type) where
  | ok (a : α)
  | error (msg : String)
  | fault (msg : String)
  deriving DecidableEq, Repr

/-! ## Data model of `client.go` -/

/-- Transport credentials handed to `grpc.WithTransportCredentials`. -/
inductive Creds where
  | insecure
  | tls (id : Nat)
  deriving DecidableEq, Repr

/-- Go `type ClientInterceptor struct { metadata map[string]string; channelKey string }`. -/
structure ClientInterceptor where
  metadata : GoMap String
  channelKey : String
  deriving DecidableEq, Repr

/-- The `grpc.DialOption` values that `NewGRPCClient` builds, and
`grpc.WithBlock()`, which it never builds and which alone makes a dial wait for
the connection. -/
inductive DialOption where
  | withDefaultCallOptions (maxCallRecvMsgSize maxCallSendMsgSize : Int)
  | withTransportCredentials (creds : Creds)
  | withUnaryInterceptor (interceptor : ClientInterceptor)
  | withBlock
  deriving DecidableEq, Repr

/-- Go `type GRPCClient struct`: `conn` is the `*grpc.ClientConn` (a connection
identity, `none` for a nil pointer), `reflectionClient` the connection the
reflection stub was created on. -/
structure GRPCClient where
  conn : Option Nat
  options : GoMap Value
  channelKey : String
  reflectionClient : Option Nat
  deriving DecidableEq, Repr

/-- Process state: the package variable `grpcChannels`, every dial attempted so
far (endpoint and dial options, oldest first) and the connections on which
`Close` has been called. -/
structure World where
  grpcChannels : String → Option GRPCClient
  dials : List (String × List DialOption)
  closed : List Nat

/-- A connection is open when no `Close` has reached it. -/
def World.isOpen (w : World) (conn : Nat) : Bool :=
  !(w.closed.contains conn)

/-- The part of the environment `NewGRPCClient` talks to:
`credentials.NewClientTLSFromFile`; `newClient`, the set-up of a client
connection for a target and its options, which involves no network traffic and
gives the connection or the set-up error; and `reachable`, whether a
connection to the endpoint gets established within the 3-second context. -/
structure DialEnv where
  newClientTLSFromFile : String → String → Except String Creds
  newClient : String → List DialOption → Except String Nat
  reachable : String → Bool

/-- Go `grpc.DialContext(ctx, endpoint, opts...)` of the gRPC library under the
3-second context of client.go line 113: the client connection is set up, and
only a dial that carries `grpc.WithBlock()` then waits for the connection and
returns the context's error when it is not established in time; without that
option the call returns the connection at once. -/
def dialContext (env : DialEnv) (endpoint : String) (opts : List DialOption) :
    Except String Nat :=
  match env.newClient endpoint opts with
  | Except.error err => Except.error err
  | Except.ok conn =>
    if opts.contains DialOption.withBlock && !env.reachable endpoint then
      Except.error "context deadline exceeded"
    else Except.ok conn

/-- Go `func (c *GRPCClient) GetChannelKey() string`. -/
def GRPCClient.GetChannelKey (c : GRPCClient) : String :=
  c.channelKey

/-- Go `func (c *GRPCClient) GetConnection() *grpc.ClientConn`. -/
def GRPCClient.GetConnection (c : GRPCClient) : Option Nat :=
  c.conn

/-- Go `func (c *GRPCClient) Close()`: closes the connection unless it is nil. -/
def GRPCClient.Close (c : GRPCClient) (w : World) : World :=
  match c.conn with
  | some conn => { w with closed := conn :: w.closed }
  | none => w

/-- The checked assertion `options["metadata"].(map[string]string)` with the
comma-ok form (client.go lines 75-78): the map, or the empty map. -/
def metadataOrEmpty (options : GoMap Value) : GoMap String :=
  match options.lookup "metadata" with
  | some (Value.strMap m) => m
  | _ => []

/-- The transport-credential step of `NewGRPCClient` (client.go lines 97-105):
the dial options extended by the credentials, or the error text. -/
def withCredentials (env : DialEnv) (sslEnabled : Bool) (opts : List DialOption) :
    Except String (List DialOption) :=
  if sslEnabled then
    match env.newClientTLSFromFile "path/to/cert" "" with
    | Except.error err => Except.error ("failed to load TLS credentials: " ++ err)
    | Except.ok creds => Except.ok (opts ++ [DialOption.withTransportCredentials creds])
  else
    Except.ok (opts ++ [DialOption.withTransportCredentials Creds.insecure])

/-- Go `func NewGRPCClient(endpoint, sslEnabled, maxMessageLength, options)`
(client.go lines 67-131). `options = none` is the nil map. The second
`interceptor := ...` (lines 107-110), read as an assignment to the variable of
line 80, uses the unchecked assertion `options["metadata"].(map[string]string)`,
which panics when the entry is missing or has another type. -/
def NewGRPCClient (env : DialEnv) (w : World) (endpoint : String) (sslEnabled : Bool)
    (maxMessageLength : Int) (options : Option (GoMap Value)) : Outcome GRPCClient × World :=
  let options : GoMap Value := match options with
    | none => []
    | some o => o
  let metadata := metadataOrEmpty options
  let _interceptor : ClientInterceptor := { metadata := metadata, channelKey := endpoint }
  match w.grpcChannels endpoint with
  | some client => (Outcome.ok client, w)
  | none =>
    let opts : List DialOption :=
      if maxMessageLength > 0 then
        [DialOption.withDefaultCallOptions maxMessageLength maxMessageLength]
      else []
    match withCredentials env sslEnabled opts with
    | Except.error msg => (Outcome.error msg, w)
    | Except.ok opts =>
      match options.lookup "metadata" with
      | some (Value.strMap m) =>
        let interceptor : ClientInterceptor := { metadata := m, channelKey := endpoint }
        let opts := opts ++ [DialOption.withUnaryInterceptor interceptor]
        let w1 : World := { w with dials := w.dials ++ [(endpoint, opts)] }
        match dialContext env endpoint opts with
        | Except.error err =>
          (Outcome.error ("failed to connect to gRPC server: " ++ err), w1)
        | Except.ok conn =>
          let client : GRPCClient :=
            { conn := some conn, options := options, channelKey := endpoint,
              reflectionClient := some conn }
          (Outcome.ok client,
            { w1 with grpcChannels := fun k => if k = endpoint then some client else w1.grpcChannels k })
      | _ =>
        (Outcome.fault "interface conversion: interface value is not map[string]string", w)

/-! ## The call interceptor -/

/-- Go `metadata.MD` (`map[string][]string`) of the gRPC library, as the function
from a key to the values stored under it; a key that is absent has no values. -/
abbrev MD := String → List String

/-- Go `metadata.New(m)` of the gRPC library: for every entry of `m`, in iteration
order, `key := strings.ToLower(k); md[key] = append(md[key], val)`. The
lower-casing function `strings.ToLower` is the parameter `toLower`. -/
def metadataNew (toLower : String → String) (m : GoMap String) : MD :=
  m.foldl (fun md kv => Function.update md (toLower kv.1) (md (toLower kv.1) ++ [kv.2]))
    (fun _ => [])

/-- The outgoing metadata of a context (`rawMD` of the gRPC library): the `MD`
set by `NewOutgoingContext` and the pairs added by `AppendToOutgoingContext`. -/
structure RawMD where
  md : MD
  added : List (String × String)

/-- Go `context.Context`: its outgoing-metadata value, and `base` standing for
everything else it carries (deadline, cancellation, other values). -/
structure Context where
  outgoing : Option RawMD
  base : Nat

/-- Go `metadata.NewOutgoingContext(ctx, md)` of the gRPC library:
`context.WithValue(ctx, mdOutgoingKey{}, rawMD{md: md})`; an earlier outgoing
value of `ctx` is replaced. -/
def NewOutgoingContext (ctx : Context) (md : MD) : Context :=
  { ctx with outgoing := some { md := md, added := [] } }

/-- The values a context sends under key `k`. -/
def Context.outgoingValues (ctx : Context) (k : String) : List String :=
  match ctx.outgoing with
  | none => []
  | some raw => raw.md k ++ (raw.added.filter (fun kv => kv.1 = k)).map Prod.snd

/-- Arguments of one call of the `grpc.UnaryInvoker`. -/
structure InvokerArgs where
  ctx : Context
  method : String
  req : Value
  reply : Value
  cc : Option Nat
  opts : List Nat

/-- What a call of `UnaryInterceptor` leaves behind: the returned `error`, the
invoker calls it made, and the receiver `*ci` after the call. -/
structure InterceptorResult where
  err : Option String
  invoked : List InvokerArgs
  self : ClientInterceptor

/-- Go `func (ci *ClientInterceptor) handleError(err error) error`. -/
def ClientInterceptor.handleError (_ci : ClientInterceptor) (err : String) : Option String :=
  some err

/-- Go `func (ci *ClientInterceptor) UnaryInterceptor(ctx, method, req, reply, cc,
invoker, opts...) error` (client.go lines 49-59). -/
def ClientInterceptor.UnaryInterceptor (toLower : String → String) (ci : ClientInterceptor)
    (ctx : Context) (method : String) (req reply : Value) (cc : Option Nat)
    (invoker : InvokerArgs → Option String) (opts : List Nat) : InterceptorResult :=
  let md := metadataNew toLower ci.metadata
  let newCtx := NewOutgoingContext ctx md
  let args : InvokerArgs :=
    { ctx := newCtx, method := method, req := req, reply := reply, cc := cc, opts := opts }
  match invoker args with
  | some err => { err := ci.handleError err, invoked := [args], self := ci }
  | none => { err := none, invoked := [args], self := ci }

/-- One unary call as the transport hands it to the interceptor. -/
structure UnaryCall where
  ctx : Context
  method : String
  req : Value
  reply : Value
  cc : Option Nat
  invoker : InvokerArgs → Option String
  opts : List Nat

/-- A sequence of unary calls through one interceptor: the invoker calls made,
oldest first, and the interceptor after the last call. -/
def issueCalls (toLower : String → String) :
    ClientInterceptor → List UnaryCall → List InvokerArgs × ClientInterceptor
  | ci, [] => ([], ci)
  | ci, call :: rest =>
    let r := ci.UnaryInterceptor toLower call.ctx call.method call.req call.reply call.cc
      call.invoker call.opts
    let p := issueCalls toLower r.self rest
    (r.invoked ++ p.1, p.2)

/-- ASCII lower-casing, the value of Go `strings.ToLower` on ASCII text. -/
def asciiLower (s : String) : String :=
  String.mk (s.data.map Char.toLower)

/-! ## Reflection-driven method lookup -/

/-- Go `protoreflect.MethodDescriptor`, reduced to `Name()`. -/
structure MethodDescriptor where
  name : String
  deriving DecidableEq, Repr

/-- Go `protoreflect.ServiceDescriptor`: `Name()` and `Methods()`. -/
structure ServiceDescriptor where
  name : String
  methods : List MethodDescriptor
  deriving DecidableEq, Repr

/-- Go `protoreflect.FileDescriptor`, reduced to `Services()`. -/
structure FileDescriptor where
  services : List ServiceDescriptor
  deriving DecidableEq, Repr

/-- Go `grpc.MethodDesc{MethodName: method, Handler: nil}`. -/
structure MethodDesc where
  MethodName : String
  deriving DecidableEq, Repr

/-- Go `grpc.ServiceDesc` as `GetGRPCMethod` fills it (`Streams` stays empty). -/
structure ServiceDesc where
  ServiceName : String
  Methods : List MethodDesc
  deriving DecidableEq, Repr

/-- The `MessageResponse` oneof of `ServerReflectionResponse`. -/
inductive MessageResponse where
  | fileDescriptorResponse (fileDescriptorProto : List (List Nat))
  | allExtensionNumbersResponse
  | listServicesResponse (service : List String)
  | errorResponse (errorCode : Int) (errorMessage : String)
  deriving DecidableEq, Repr

/-- Go `grpc_reflection_v1alpha.ServerReflectionResponse`. -/
structure ServerReflectionResponse where
  validHost : String
  messageResponse : Option MessageResponse
  deriving DecidableEq, Repr

/-- Generated getter `GetFileDescriptorResponse()`: the `*FileDescriptorResponse`
(here its `FileDescriptorProto` field), nil for every other variant. -/
def ServerReflectionResponse.GetFileDescriptorResponse (resp : ServerReflectionResponse) :
    Option (List (List Nat)) :=
  match resp.messageResponse with
  | some (MessageResponse.fileDescriptorResponse blobs) => some blobs
  | _ => none

/-- Go `descriptorpb.FileDescriptorProto`, the decoded message before it is built
into a `FileDescriptor`. -/
structure FileDescriptorProto where
  name : String
  package : String
  service : List (String × List String)
  deriving DecidableEq, Repr

/-- The part of the environment the reflection exchange talks to: opening the
`ServerReflectionInfo` stream on a connection, `stream.Send`, `stream.Recv`,
`proto.Unmarshal` and `protodesc.NewFile`. -/
structure ReflectEnv where
  serverReflectionInfo : Nat → Except String Nat
  send : Nat → String → Option String
  recv : Nat → Except String ServerReflectionResponse
  unmarshal : List Nat → Except String FileDescriptorProto
  newFile : FileDescriptorProto → Except String FileDescriptor

/-- The inner loop of `GetGRPCMethod` (client.go lines 200-211): the first
method named `method` is appended to `acc`, and the loop breaks. -/
def scanMethods (method : String) (acc : List MethodDesc) : List MethodDescriptor → List MethodDesc
  | [] => acc
  | m :: rest =>
    if m.name = method then acc ++ [{ MethodName := method }]
    else scanMethods method acc rest

/-- The outer loop of `GetGRPCMethod` (client.go lines 187-214): at the first
service named `service` a `ServiceDesc` is built, its methods are scanned, and
the loop breaks. -/
def scanServices (service method : String) : List ServiceDescriptor → Option ServiceDesc
  | [] => none
  | s :: rest =>
    if s.name = service then
      some { ServiceName := service, Methods := scanMethods method [] s.methods }
    else scanServices service method rest

/-- Go `fmt.Sprintf("/%s/%s", service, method)`. -/
def methodPath (service method : String) : String :=
  "/" ++ service ++ "/" ++ method

/-- Text of the error of client.go line 217. -/
def notFoundMessage (method service : String) : String :=
  "메서드 " ++ method ++ "를 서비스 " ++ service ++ "에서 찾을 수 없습니다"

/-- The closure `methodFunc` returned by `GetGRPCMethod`, by the variables it
captures. -/
structure MethodFunc where
  client : GRPCClient
  service : String
  method : String
  deriving DecidableEq, Repr

/-- One call of `(*grpc.ClientConn).Invoke`. -/
structure InvokeRecord where
  conn : Nat
  ctx : Context
  path : String
  req : Value
  opts : List Nat

/-- Body of `methodFunc` (client.go lines 221-225): `Invoke` on the captured
client's connection; `invoke` is the transport, giving the reply written
through `&reply` and the returned `error`. The second component lists the
transport calls made. -/
def MethodFunc.call (invoke : InvokeRecord → Value × Option String) (f : MethodFunc)
    (ctx : Context) (req : Value) (opts : List Nat) :
    Outcome (Value × Option String) × List InvokeRecord :=
  match f.client.conn with
  | none => (Outcome.fault "invalid memory address or nil pointer dereference", [])
  | some conn =>
    let r : InvokeRecord :=
      { conn := conn, ctx := ctx, path := methodPath f.service f.method, req := req, opts := opts }
    (Outcome.ok (invoke r), [r])

/-- First half of the body of `GetGRPCMethod` after the client is acquired
(client.go lines 153-184): the reflection exchange up to the built file
descriptor. -/
def fetchFileDescriptor (env : ReflectEnv) (client : GRPCClient) (service : String) :
    Outcome FileDescriptor :=
  match client.reflectionClient with
  | none => Outcome.fault "invalid memory address or nil pointer dereference"
  | some conn =>
    match env.serverReflectionInfo conn with
    | Except.error err => Outcome.error ("서버 리플렉션 정보 가져오기 실패: " ++ err)
    | Except.ok stream =>
      match env.send stream service with
      | some err => Outcome.error ("리플렉션 요청 전송 실패: " ++ err)
      | none =>
        match env.recv stream with
        | Except.error err => Outcome.error ("리플렉션 응답 수신 실패: " ++ err)
        | Except.ok resp =>
          match resp.GetFileDescriptorResponse with
          | none => Outcome.fault "invalid memory address or nil pointer dereference"
          | some [] => Outcome.fault "index out of range [0] with length 0"
          | some (blob :: _) =>
            match env.unmarshal blob with
            | Except.error err => Outcome.error ("파일 디스크립터 언마샬링 실패: " ++ err)
            | Except.ok fileDescProto =>
              match env.newFile fileDescProto with
              | Except.error err => Outcome.error ("파일 디스크립터 생성 실패: " ++ err)
              | Except.ok fileDesc => Outcome.ok fileDesc

/-- Second half of the body (client.go lines 186-228): the service and method
scan, the not-found check and the construction of `methodFunc`. -/
def lookupMethod (fileDesc : FileDescriptor) (client : GRPCClient) (service method : String) :
    Outcome MethodFunc :=
  match scanServices service method fileDesc.services with
  | none => Outcome.error (notFoundMessage method service)
  | some serviceDesc =>
    if serviceDesc.Methods.length = 0 then Outcome.error (notFoundMessage method service)
    else Outcome.ok { client := client, service := service, method := method }

/-- Body of `GetGRPCMethod` between `defer client.Close()` and the return. -/
def resolveMethod (env : ReflectEnv) (client : GRPCClient) (service method : String) :
    Outcome MethodFunc :=
  match fetchFileDescriptor env client service with
  | Outcome.ok fileDesc => lookupMethod fileDesc client service method
  | Outcome.error msg => Outcome.error msg
  | Outcome.fault msg => Outcome.fault msg

/-- Go `func GetGRPCMethod(uriInfo map[string]interface{}) (interface{}, error)`
(client.go lines 141-228). The four unchecked type assertions panic on a
missing or ill-typed entry; `defer client.Close()` runs on every exit taken
after the client was acquired. -/
def GetGRPCMethod (denv : DialEnv) (renv : ReflectEnv) (w : World) (uriInfo : GoMap Value) :
    Outcome MethodFunc × World :=
  match uriInfo.lookup "endpoint" with
  | some (Value.str endpoint) =>
    match uriInfo.lookup "ssl_enabled" with
    | some (Value.bool sslEnabled) =>
      match uriInfo.lookup "service" with
      | some (Value.str service) =>
        match uriInfo.lookup "method" with
        | some (Value.str method) =>
          match NewGRPCClient denv w endpoint sslEnabled 0 (some []) with
          | (Outcome.fault msg, w1) => (Outcome.fault msg, w1)
          | (Outcome.error err, w1) => (Outcome.error ("gRPC 클라이언트 생성 실패: " ++ err), w1)
          | (Outcome.ok client, w1) =>
            (resolveMethod renv client service method, client.Close w1)
        | _ => (Outcome.fault "interface conversion: interface value is not string", w)
      | _ => (Outcome.fault "interface conversion: interface value is not string", w)
    | _ => (Outcome.fault "interface conversion: interface value is not bool", w)
  | _ => (Outcome.fault "interface conversion: interface value is not string", w)

/-! ## Concrete inputs used to run the definitions -/

/-- The registry before any client exists; nothing dialled, nothing closed. -/
def freshWorld : World :=
  { grpcChannels := fun _ => none, dials := [], closed := [] }

/-- A transport on which the certificate file is missing, every endpoint is
reachable and a dial gives connection `1`. -/
def reachableEnv : DialEnv :=
  { newClientTLSFromFile := fun _ _ => Except.error "open path/to/cert: no such file or directory"
    newClient := fun _ _ => Except.ok 1
    reachable := fun _ => true }

/-- A transport on which no endpoint can be reached: no connection gets
established, however long the dial waits. Setting up a client connection gives
connection `2`. -/
def unreachableEnv : DialEnv :=
  { newClientTLSFromFile := fun _ _ => Except.ok (Creds.tls 0)
    newClient := fun _ _ => Except.ok 2
    reachable := fun _ => false }

/-- The client `NewGRPCClient` builds for the unreachable `10.255.255.1:50051`
from `tokenOptions` on `unreachableEnv`. -/
def strandedClient : GRPCClient :=
  { conn := some 2, options := [("metadata", Value.strMap [("x-token", "abc")])],
    channelKey := "10.255.255.1:50051", reflectionClient := some 2 }

/-- Options that carry one metadata header. -/
def tokenOptions : GoMap Value :=
  [("metadata", Value.strMap [("x-token", "abc")])]

/-- The client `NewGRPCClient` builds for `localhost:50051` from `tokenOptions`
on `reachableEnv`. -/
def echoClient : GRPCClient :=
  { conn := some 1, options := tokenOptions, channelKey := "localhost:50051",
    reflectionClient := some 1 }

/-- The registry after `localhost:50051` was acquired once from `freshWorld`
with `tokenOptions`: it holds `echoClient`, whose connection `1` is open. -/
def registeredWorld : World :=
  (NewGRPCClient reachableEnv freshWorld "localhost:50051" false 0 (some tokenOptions)).2

/-- A well-formed request for method `method` of service `service` on
`localhost:50051`. -/
def uriFor (service method : String) : GoMap Value :=
  [("endpoint", Value.str "localhost:50051"), ("ssl_enabled", Value.bool false),
    ("service", Value.str service), ("method", Value.str method)]

/-- A file that declares service `Echo` with the single method `Say`. -/
def echoFile : FileDescriptor :=
  { services := [{ name := "Echo", methods := [{ name := "Say" }] }] }

/-- A remote side whose reflection stream answers with `resp` and whose first
descriptor blob decodes and builds to `fd`. -/
def reflectEnvOf (resp : ServerReflectionResponse) (fd : FileDescriptor) : ReflectEnv :=
  { serverReflectionInfo := fun _ => Except.ok 0
    send := fun _ _ => none
    recv := fun _ => Except.ok resp
    unmarshal := fun _ => Except.ok { name := "echo.proto", package := "", service := [] }
    newFile := fun _ => Except.ok fd }

/-- A remote side that serves the descriptor `fd` in one blob. -/
def servingEnv (fd : FileDescriptor) : ReflectEnv :=
  reflectEnvOf
    { validHost := "localhost:50051"
      messageResponse := some (MessageResponse.fileDescriptorResponse [[10, 10]]) } fd

/-- A remote side that answers the symbol query with an error response, as a
reflection server does for a symbol it does not know. -/
def errorResponseEnv : ReflectEnv :=
  reflectEnvOf
    { validHost := "localhost:50051"
      messageResponse := some (MessageResponse.errorResponse 5 "Symbol not found: Missing") }
    echoFile

/-- A remote side whose file-descriptor response carries no blob. -/
def emptyBlobsEnv : ReflectEnv :=
  reflectEnvOf
    { validHost := "localhost:50051"
      messageResponse := some (MessageResponse.fileDescriptorResponse []) } echoFile

/-- The call context `context.Background()`. -/
def background : Context :=
  { outgoing := none, base := 0 }

/-- A call context that already carries outgoing metadata under `x-token`. -/
def taggedContext : Context :=
  { outgoing := some { md := fun _ => ["old"], added := [("x-token", "old")] }, base := 0 }

/-- A unary call of `/Echo/Say` on connection `1` whose invoker succeeds. -/
def pingCall (ctx : Context) : UnaryCall :=
  { ctx := ctx, method := "/Echo/Say", req := Value.str "ping", reply := Value.null,
    cc := some 1, invoker := fun _ => none, opts := [] }

/-- Text `sub` occurs in text `msg`. -/
def Mentions (msg sub : String) : Prop :=
  ∃ pre post : String, msg = pre ++ sub ++ post

/-! ## The channel registry: cache hit -/

/-- A call that finds `endpoint` in the registry returns the registered client
and changes nothing. -/
theorem newGRPCClient_of_registered (env : DialEnv) (w : World) (endpoint : String)
    (sslEnabled : Bool) (maxMessageLength : Int) (options : Option (GoMap Value))
    (c : GRPCClient) (h : w.grpcChannels endpoint = some c) :
    NewGRPCClient env w endpoint sslEnabled maxMessageLength options = (Outcome.ok c, w) := by
  simp only [NewGRPCClient, h]

/-- After a successful call the registry maps `endpoint` to the returned client. -/
theorem newGRPCClient_ok_registers (env : DialEnv) (w : World) (endpoint : String)
    (sslEnabled : Bool) (maxMessageLength : Int) (options : Option (GoMap Value))
    (c : GRPCClient)
    (h : (NewGRPCClient env w endpoint sslEnabled maxMessageLength options).1 = Outcome.ok c) :
    (NewGRPCClient env w endpoint sslEnabled maxMessageLength options).2.grpcChannels endpoint
      = some c := by
  unfold NewGRPCClient at h ⊢
  simp only at h ⊢
  split
  · next client hc =>
    rw [hc] at h
    simp only [Outcome.ok.injEq] at h
    rw [← h]; exact hc
  · next hc =>
    rw [hc] at h
    simp only at h
    split
    · next msg hm => rw [hm] at h; simp at h
    · next opts ho =>
      rw [ho] at h
      simp only at h
      split
      · next m hmd =>
        rw [hmd] at h
        simp only at h
        split
        · next err hd => rw [hd] at h; simp at h
        · next conn hd =>
          rw [hd] at h
          simp only [Outcome.ok.injEq] at h
          simp [← h]
      · next hmd =>
        split at h
        · next m hm => exact absurd hm (hmd m)
        · simp at h

/-- C1: when `NewGRPCClient(E, ...)` succeeds with client `c`, an immediately
following `NewGRPCClient(E, ...)` with any other TLS flag, message length and
options, and whatever the transport would do then, succeeds with the same
client `c` and leaves the whole process state as it was: the registry is
unchanged and the dial log is unchanged, so no dial is performed. -/
theorem newGRPCClient_second_acquisition_same_client (env1 env2 : DialEnv) (w : World)
    (E : String) (ssl1 ssl2 : Bool) (max1 max2 : Int) (opts1 opts2 : Option (GoMap Value))
    (c : GRPCClient)
    (h : (NewGRPCClient env1 w E ssl1 max1 opts1).1 = Outcome.ok c) :
    NewGRPCClient env2 (NewGRPCClient env1 w E ssl1 max1 opts1).2 E ssl2 max2 opts2
      = (Outcome.ok c, (NewGRPCClient env1 w E ssl1 max1 opts1).2) :=
  newGRPCClient_of_registered env2 _ E ssl2 max2 opts2 c
    (newGRPCClient_ok_registers env1 w E ssl1 max1 opts1 c h)

/-- Witness of C1 on a fresh registry: the first call dials and succeeds, the
second call asks for TLS, another size and nil options on a dead transport. -/
theorem newGRPCClient_second_acquisition_same_client_witness :
    (NewGRPCClient reachableEnv freshWorld "localhost:50051" false 0 (some tokenOptions)).1
        = Outcome.ok echoClient ∧
      NewGRPCClient unreachableEnv
          (NewGRPCClient reachableEnv freshWorld "localhost:50051" false 0 (some tokenOptions)).2
          "localhost:50051" true 4096 none
        = (Outcome.ok echoClient,
          (NewGRPCClient reachableEnv freshWorld "localhost:50051" false 0 (some tokenOptions)).2) :=
  ⟨rfl, newGRPCClient_second_acquisition_same_client reachableEnv unreachableEnv freshWorld
    "localhost:50051" false true 0 4096 (some tokenOptions) none echoClient rfl⟩


/-! ## Cache miss: credentials, dial, registration -/

/-- The credential step never adds `grpc.WithBlock()` to the options built from
the message length. -/
theorem withBlock_not_mem_of_withCredentials (env : DialEnv) (ssl : Bool) (max : Int)
    (opts0 : List DialOption)
    (h : withCredentials env ssl
      (if max > 0 then [DialOption.withDefaultCallOptions max max] else []) = Except.ok opts0) :
    opts0.contains DialOption.withBlock = false := by
  unfold withCredentials at h
  by_cases hmax : max > 0 <;> cases ssl
  all_goals simp only [hmax, if_true, if_false, Bool.false_eq_true] at h
  all_goals first
    | (cases h; simp)
    | (split at h
       · cases h
       · cases h; simp)

/-- The options `NewGRPCClient` works with: the given map, the empty map for nil. -/
theorem options_or_empty (options : Option (GoMap Value)) :
    (match options with | none => [] | some o => o) = options.getD [] := by
  cases options <;> rfl

/-- A cache miss whose credentials load and whose options carry a
string-to-string map under `metadata` sets up the client connection exactly
once, logs that dial, and is decided by the set-up alone: a set-up error is
returned as the connection error with the registry unchanged; otherwise the
client is returned and registered under `E`, whether or not the endpoint can be
reached. -/
theorem newGRPCClient_miss_dials (env : DialEnv) (w : World) (E : String) (ssl : Bool)
    (max : Int) (options : Option (GoMap Value)) (m : GoMap String) (opts0 : List DialOption)
    (hmiss : w.grpcChannels E = none)
    (hmd : (options.getD []).lookup "metadata" = some (Value.strMap m))
    (hcred : withCredentials env ssl
      (if max > 0 then [DialOption.withDefaultCallOptions max max] else []) = Except.ok opts0) :
    NewGRPCClient env w E ssl max options =
      match env.newClient E
        (opts0 ++ [DialOption.withUnaryInterceptor { metadata := m, channelKey := E }]) with
      | Except.error err =>
        (Outcome.error ("failed to connect to gRPC server: " ++ err),
          { w with dials := w.dials ++
              [(E, opts0 ++ [DialOption.withUnaryInterceptor { metadata := m, channelKey := E }])] })
      | Except.ok conn =>
        (Outcome.ok
            { conn := some conn, options := options.getD [],
              channelKey := E, reflectionClient := some conn },
          { grpcChannels := fun k =>
              if k = E then
                some { conn := some conn, options := options.getD [],
                       channelKey := E, reflectionClient := some conn }
              else w.grpcChannels k
            dials := w.dials ++
              [(E, opts0 ++ [DialOption.withUnaryInterceptor { metadata := m, channelKey := E }])]
            closed := w.closed }) := by
  have hb := withBlock_not_mem_of_withCredentials env ssl max opts0 hcred
  have hb2 : (opts0 ++ [DialOption.withUnaryInterceptor { metadata := m, channelKey := E }]).contains
      DialOption.withBlock = false := by
    simp only [List.contains_eq_any_beq, List.any_append, Bool.or_eq_false_iff] at hb ⊢
    exact ⟨hb, by simp⟩
  unfold NewGRPCClient
  simp only [options_or_empty, hmiss, hcred, hmd, dialContext, hb2, Bool.false_and,
    Bool.false_eq_true, if_false]
  cases env.newClient E
    (opts0 ++ [DialOption.withUnaryInterceptor { metadata := m, channelKey := E }]) <;> rfl

/-- Whether the endpoint can be reached within the 3-second context has no
effect on `NewGRPCClient`: no dial it makes carries `grpc.WithBlock()`. -/
theorem newGRPCClient_reachable_irrelevant (env : DialEnv) (r : String → Bool) (w : World)
    (E : String) (ssl : Bool) (max : Int) (options : Option (GoMap Value)) :
    NewGRPCClient { env with reachable := r } w E ssl max options
      = NewGRPCClient env w E ssl max options := by
  cases hreg : w.grpcChannels E with
  | some c =>
    rw [newGRPCClient_of_registered _ w E ssl max options c hreg,
      newGRPCClient_of_registered _ w E ssl max options c hreg]
  | none =>
    have hw : withCredentials { env with reachable := r } ssl
        (if max > 0 then [DialOption.withDefaultCallOptions max max] else [])
        = withCredentials env ssl
          (if max > 0 then [DialOption.withDefaultCallOptions max max] else []) := rfl
    cases hcred : withCredentials env ssl
        (if max > 0 then [DialOption.withDefaultCallOptions max max] else []) with
    | error msg =>
      unfold NewGRPCClient
      simp only [hreg, hw, hcred]
    | ok opts0 =>
      cases hl : List.lookup "metadata" (match options with | none => [] | some o => o) with
      | none =>
        unfold NewGRPCClient
        simp only [hreg, hw, hcred, hl]
      | some v =>
        cases v with
        | strMap m =>
          rw [options_or_empty] at hl
          rw [newGRPCClient_miss_dials _ w E ssl max options m opts0 hreg hl (hw.trans hcred),
            newGRPCClient_miss_dials env w E ssl max options m opts0 hreg hl hcred]
        | _ =>
          unfold NewGRPCClient
          simp only [hreg, hw, hcred, hl]

/-- Without TLS, a cache miss whose options carry no string-to-string map under
`metadata` panics at the unchecked assertion, before any dial. -/
theorem newGRPCClient_fault_of_no_metadata (env : DialEnv) (w : World) (E : String)
    (max : Int) (options : Option (GoMap Value)) (hmiss : w.grpcChannels E = none)
    (hno : ∀ m, (match options with | none => [] | some o => o).lookup "metadata"
      ≠ some (Value.strMap m)) :
    NewGRPCClient env w E false max options
      = (Outcome.fault "interface conversion: interface value is not map[string]string", w) := by
  unfold NewGRPCClient
  simp only [hmiss, withCredentials, Bool.false_eq_true, if_false]

/-! ## The service and method scan -/

/-- The not-found text contains the method name. -/
theorem mentions_method (method service : String) :
    Mentions (notFoundMessage method service) method :=
  ⟨"메서드 ", "를 서비스 " ++ service ++ "에서 찾을 수 없습니다", by
    simp only [notFoundMessage, String.append_assoc]⟩

/-- The not-found text contains the service name. -/
theorem mentions_service (method service : String) :
    Mentions (notFoundMessage method service) service :=
  ⟨"메서드 " ++ method ++ "를 서비스 ", "에서 찾을 수 없습니다", by
    simp only [notFoundMessage, String.append_assoc]⟩

/-- The method scan appends nothing when no method has the name sought. -/
theorem scanMethods_nil_of_absent (method : String) (ms : List MethodDescriptor)
    (h : ∀ m ∈ ms, m.name ≠ method) : scanMethods method [] ms = [] := by
  induction ms with
  | nil => rfl
  | cons m rest ih =>
    have hm : m.name ≠ method := h m (List.mem_cons_self _ _)
    simp only [scanMethods, hm, if_false]
    exact ih (fun x hx => h x (List.mem_cons_of_mem _ hx))

/-- The method scan appends exactly one entry when some method has the name sought. -/
theorem scanMethods_of_present (method : String) (ms : List MethodDescriptor)
    (h : ∃ m ∈ ms, m.name = method) :
    scanMethods method [] ms = [{ MethodName := method }] := by
  induction ms with
  | nil => obtain ⟨m, hm, _⟩ := h; cases hm
  | cons m rest ih =>
    by_cases hm : m.name = method
    · simp [scanMethods, hm]
    · simp only [scanMethods, hm, if_false]
      apply ih
      obtain ⟨x, hx, hxn⟩ := h
      rcases List.mem_cons.mp hx with rfl | hx
      · exact absurd hxn hm
      · exact ⟨x, hx, hxn⟩

/-- The service scan stops at the first service with the name sought. -/
theorem scanServices_eq_find (service method : String) (ss : List ServiceDescriptor) :
    scanServices service method ss =
      (ss.find? (fun s => s.name == service)).map
        (fun s => { ServiceName := service, Methods := scanMethods method [] s.methods }) := by
  induction ss with
  | nil => rfl
  | cons s rest ih =>
    by_cases hs : s.name = service
    · simp [scanServices, hs]
    · simp [scanServices, hs, ih]

/-- The lookup is decided by the methods of the first service with the name sought. -/
theorem lookupMethod_of_find (fd : FileDescriptor) (c : GRPCClient) (S M : String)
    (s : ServiceDescriptor) (h : fd.services.find? (fun s => s.name == S) = some s) :
    lookupMethod fd c S M =
      if ∃ m ∈ s.methods, m.name = M then Outcome.ok { client := c, service := S, method := M }
      else Outcome.error (notFoundMessage M S) := by
  unfold lookupMethod
  rw [scanServices_eq_find, h]
  simp only [Option.map_some']
  by_cases hm : ∃ m ∈ s.methods, m.name = M
  · rw [scanMethods_of_present M s.methods hm]
    simp [hm]
  · rw [scanMethods_nil_of_absent M s.methods (by
      intro m hmem hname; exact hm ⟨m, hmem, hname⟩)]
    simp [hm]

/-- The lookup fails with the not-found text when no service has the name sought. -/
theorem lookupMethod_of_find_none (fd : FileDescriptor) (c : GRPCClient) (S M : String)
    (h : fd.services.find? (fun s => s.name == S) = none) :
    lookupMethod fd c S M = Outcome.error (notFoundMessage M S) := by
  unfold lookupMethod
  rw [scanServices_eq_find, h]
  rfl


/-- With a well-formed `uriInfo` and an acquired client, `GetGRPCMethod` is the
reflection lookup on that client followed by the deferred `Close`. -/
theorem getGRPCMethod_of_client (denv : DialEnv) (renv : ReflectEnv) (w : World)
    (uriInfo : GoMap Value) (E : String) (ssl : Bool) (S M : String) (c : GRPCClient)
    (hE : uriInfo.lookup "endpoint" = some (Value.str E))
    (hssl : uriInfo.lookup "ssl_enabled" = some (Value.bool ssl))
    (hS : uriInfo.lookup "service" = some (Value.str S))
    (hM : uriInfo.lookup "method" = some (Value.str M))
    (hc : (NewGRPCClient denv w E ssl 0 (some [])).1 = Outcome.ok c) :
    GetGRPCMethod denv renv w uriInfo
      = (resolveMethod renv c S M, c.Close (NewGRPCClient denv w E ssl 0 (some [])).2) := by
  unfold GetGRPCMethod
  simp only [hE, hssl, hS, hM]
  rcases hn : NewGRPCClient denv w E ssl 0 (some []) with ⟨o, w1⟩
  rw [hn] at hc
  simp only at hc
  subst hc
  rfl

/-- With a well-formed `uriInfo` and an acquired client on connection `conn`,
that connection is closed when `GetGRPCMethod` is left, whatever the outcome of
the reflection exchange. -/
theorem getGRPCMethod_closes_acquired (denv : DialEnv) (renv : ReflectEnv) (w : World)
    (uriInfo : GoMap Value) (E : String) (ssl : Bool) (S M : String) (c : GRPCClient)
    (conn : Nat)
    (hE : uriInfo.lookup "endpoint" = some (Value.str E))
    (hssl : uriInfo.lookup "ssl_enabled" = some (Value.bool ssl))
    (hS : uriInfo.lookup "service" = some (Value.str S))
    (hM : uriInfo.lookup "method" = some (Value.str M))
    (hc : (NewGRPCClient denv w E ssl 0 (some [])).1 = Outcome.ok c)
    (hconn : c.conn = some conn) :
    (GetGRPCMethod denv renv w uriInfo).2.isOpen conn = false := by
  rw [getGRPCMethod_of_client denv renv w uriInfo E ssl S M c hE hssl hS hM hc]
  simp [GRPCClient.Close, hconn, World.isOpen]

/-- Among services with pairwise distinct names, the first service named `S` is the
service named `S`. -/
theorem find_of_nodup (ss : List ServiceDescriptor) (S : String) (s : ServiceDescriptor)
    (hnodup : (ss.map ServiceDescriptor.name).Nodup) (hs : s ∈ ss) (hname : s.name = S) :
    ss.find? (fun s => s.name == S) = some s := by
  cases hf : ss.find? (fun s => s.name == S) with
  | none =>
    have := List.find?_eq_none.mp hf s hs
    simp [hname] at this
  | some t =>
    have ht : t ∈ ss := List.mem_of_find?_eq_some hf
    have hn : t.name = S := by simpa using List.find?_some hf
    have : t = s := List.inj_on_of_nodup_map hnodup ht hs (hn.trans hname.symm)
    rw [this]

/-- C3: for a well-formed `uriInfo` (endpoint `E`, service `S`, method `M`) whose
client `c` is acquired and has connection `conn`, and whose reflection
exchange yields the decoded file descriptor `fd`, with pairwise distinct service
names as `protodesc.NewFile` builds it: when `fd` declares a service named `S`
having a method named `M`, `GetGRPCMethod` returns no error and an invoker, and
every invocation of that invoker with context `ctx` and request `req` makes
exactly one generic call, on connection `conn`, with path `"/" + S + "/" + M`
and request `req`, and returns that call's reply and error unmodified. -/
theorem getGRPCMethod_found (denv : DialEnv) (renv : ReflectEnv) (w : World)
    (uriInfo : GoMap Value) (E : String) (ssl : Bool) (S M : String) (c : GRPCClient)
    (fd : FileDescriptor) (conn : Nat)
    (hE : uriInfo.lookup "endpoint" = some (Value.str E))
    (hssl : uriInfo.lookup "ssl_enabled" = some (Value.bool ssl))
    (hS : uriInfo.lookup "service" = some (Value.str S))
    (hM : uriInfo.lookup "method" = some (Value.str M))
    (hc : (NewGRPCClient denv w E ssl 0 (some [])).1 = Outcome.ok c)
    (hconn : c.conn = some conn)
    (hfd : fetchFileDescriptor renv c S = Outcome.ok fd)
    (hnodup : (fd.services.map ServiceDescriptor.name).Nodup)
    (hdecl : ∃ s ∈ fd.services, s.name = S ∧ ∃ m ∈ s.methods, m.name = M) :
    ∃ f : MethodFunc, (GetGRPCMethod denv renv w uriInfo).1 = Outcome.ok f ∧
      ∀ (invoke : InvokeRecord → Value × Option String) (ctx : Context) (req : Value)
        (opts : List Nat),
        f.call invoke ctx req opts =
          (Outcome.ok (invoke
              { conn := conn, ctx := ctx, path := "/" ++ S ++ "/" ++ M, req := req, opts := opts }),
            [{ conn := conn, ctx := ctx, path := "/" ++ S ++ "/" ++ M, req := req, opts := opts }]) := by
  obtain ⟨s, hs, hname, hm⟩ := hdecl
  refine ⟨{ client := c, service := S, method := M }, ?_, ?_⟩
  · rw [getGRPCMethod_of_client denv renv w uriInfo E ssl S M c hE hssl hS hM hc]
    simp only [resolveMethod, hfd]
    rw [lookupMethod_of_find fd c S M s (find_of_nodup fd.services S s hnodup hs hname)]
    simp [hm]
  · intro invoke ctx req opts
    simp only [MethodFunc.call, hconn, methodPath]

/-- With a well-formed `uriInfo`, an acquired client and a decoded descriptor in
which no service named `S` declares a method named `M`, `GetGRPCMethod` returns
the not-found error. -/
theorem getGRPCMethod_error_of_absent (denv : DialEnv) (renv : ReflectEnv) (w : World)
    (uriInfo : GoMap Value) (E : String) (ssl : Bool) (S M : String) (c : GRPCClient)
    (fd : FileDescriptor)
    (hE : uriInfo.lookup "endpoint" = some (Value.str E))
    (hssl : uriInfo.lookup "ssl_enabled" = some (Value.bool ssl))
    (hS : uriInfo.lookup "service" = some (Value.str S))
    (hM : uriInfo.lookup "method" = some (Value.str M))
    (hc : (NewGRPCClient denv w E ssl 0 (some [])).1 = Outcome.ok c)
    (hfd : fetchFileDescriptor renv c S = Outcome.ok fd)
    (habsent : ∀ s ∈ fd.services, s.name = S → ∀ m ∈ s.methods, m.name ≠ M) :
    (GetGRPCMethod denv renv w uriInfo).1 = Outcome.error (notFoundMessage M S) := by
  rw [getGRPCMethod_of_client denv renv w uriInfo E ssl S M c hE hssl hS hM hc]
  simp only [resolveMethod, hfd]
  cases hf : fd.services.find? (fun s => s.name == S) with
  | none => exact lookupMethod_of_find_none fd c S M hf
  | some t =>
    have ht : t ∈ fd.services := List.mem_of_find?_eq_some hf
    have hn : t.name = S := by simpa using List.find?_some hf
    rw [lookupMethod_of_find fd c S M t hf]
    have : ¬ ∃ m ∈ t.methods, m.name = M := by
      rintro ⟨m, hm, hmn⟩
      exact habsent t ht hn m hm hmn
    simp [this]

/-- C4: for a well-formed `uriInfo` (service `S`, method `M`) whose client is
acquired and whose reflection exchange yields the decoded file descriptor
`fd`: when no service of `fd` is named `S`, or the services named `S` have no
method named `M`, `GetGRPCMethod` returns no invoker but the not-found error,
whose message contains both `S` and `M`. -/
theorem getGRPCMethod_not_found (denv : DialEnv) (renv : ReflectEnv) (w : World)
    (uriInfo : GoMap Value) (E : String) (ssl : Bool) (S M : String) (c : GRPCClient)
    (fd : FileDescriptor)
    (hE : uriInfo.lookup "endpoint" = some (Value.str E))
    (hssl : uriInfo.lookup "ssl_enabled" = some (Value.bool ssl))
    (hS : uriInfo.lookup "service" = some (Value.str S))
    (hM : uriInfo.lookup "method" = some (Value.str M))
    (hc : (NewGRPCClient denv w E ssl 0 (some [])).1 = Outcome.ok c)
    (hfd : fetchFileDescriptor renv c S = Outcome.ok fd)
    (habsent : (∀ s ∈ fd.services, s.name ≠ S) ∨
      (∀ s ∈ fd.services, s.name = S → ∀ m ∈ s.methods, m.name ≠ M)) :
    (GetGRPCMethod denv renv w uriInfo).1 = Outcome.error (notFoundMessage M S) ∧
      Mentions (notFoundMessage M S) S ∧ Mentions (notFoundMessage M S) M := by
  refine ⟨?_, mentions_service M S, mentions_method M S⟩
  apply getGRPCMethod_error_of_absent denv renv w uriInfo E ssl S M c fd hE hssl hS hM hc hfd
  rcases habsent with h | h
  · intro s hs hn; exact absurd hn (h s hs)
  · exact h

/-- C5 (as amended): for a well-formed `uriInfo` (service `S`, method `M`) whose
client is acquired and whose decoded file descriptor declares a service named
`S` with no method named `M`, `GetGRPCMethod` fails with the not-found error;
its message names both the method `M` and the service `S`, and it is the very
error returned, for the same request, when the remote side declares no service
named `S` at all. -/
theorem getGRPCMethod_missing_method_error (denv : DialEnv) (renv : ReflectEnv) (w : World)
    (uriInfo : GoMap Value) (E : String) (ssl : Bool) (S M : String) (c : GRPCClient)
    (fd : FileDescriptor)
    (hE : uriInfo.lookup "endpoint" = some (Value.str E))
    (hssl : uriInfo.lookup "ssl_enabled" = some (Value.bool ssl))
    (hS : uriInfo.lookup "service" = some (Value.str S))
    (hM : uriInfo.lookup "method" = some (Value.str M))
    (hc : (NewGRPCClient denv w E ssl 0 (some [])).1 = Outcome.ok c)
    (hfd : fetchFileDescriptor renv c S = Outcome.ok fd)
    (_hpresent : ∃ s ∈ fd.services, s.name = S)
    (hno : ∀ s ∈ fd.services, s.name = S → ∀ m ∈ s.methods, m.name ≠ M) :
    (GetGRPCMethod denv renv w uriInfo).1 = Outcome.error (notFoundMessage M S) ∧
      Mentions (notFoundMessage M S) M ∧ Mentions (notFoundMessage M S) S ∧
      ∀ (renv2 : ReflectEnv) (fd2 : FileDescriptor),
        fetchFileDescriptor renv2 c S = Outcome.ok fd2 →
        (∀ s ∈ fd2.services, s.name ≠ S) →
        (GetGRPCMethod denv renv2 w uriInfo).1 = (GetGRPCMethod denv renv w uriInfo).1 := by
  have h1 := getGRPCMethod_error_of_absent denv renv w uriInfo E ssl S M c fd
    hE hssl hS hM hc hfd hno
  refine ⟨h1, mentions_method M S, mentions_service M S, ?_⟩
  intro renv2 fd2 hfd2 hnone
  rw [h1]
  exact getGRPCMethod_error_of_absent denv renv2 w uriInfo E ssl S M c fd2
    hE hssl hS hM hc hfd2 (fun s hs hn => absurd hn (hnone s hs))

/-- C10: for every list of services, duplicates allowed, the service and method
scan succeeds if and only if the first service in declaration order whose name
equals `S` exactly declares a method whose name equals `M` exactly; services
after that first match are never consulted (the result does not depend on
them); a name that differs from `S` only in letter case does not match; and a
later duplicate service that declares `M` does not make the scan succeed. -/
theorem lookupMethod_first_match (c : GRPCClient) (S M : String) :
    (∀ fd : FileDescriptor, (∃ f, lookupMethod fd c S M = Outcome.ok f) ↔
      ∃ s, fd.services.find? (fun s => s.name == S) = some s ∧ ∃ m ∈ s.methods, m.name = M) ∧
    (∀ (pre : List ServiceDescriptor) (s : ServiceDescriptor) (post post2 : List ServiceDescriptor),
      (∀ p ∈ pre, p.name ≠ S) → s.name = S →
        lookupMethod { services := pre ++ s :: post } c S M
          = lookupMethod { services := pre ++ s :: post2 } c S M) ∧
    lookupMethod { services := [{ name := "echo", methods := [{ name := "Say" }] }] } c "Echo" "Say"
      = Outcome.error (notFoundMessage "Say" "Echo") ∧
    lookupMethod { services := [{ name := "Echo", methods := [] },
        { name := "Echo", methods := [{ name := "Say" }] }] } c "Echo" "Say"
      = Outcome.error (notFoundMessage "Say" "Echo") := by
  refine ⟨?_, ?_, ?_, ?_⟩
  · intro fd
    cases hf : fd.services.find? (fun s => s.name == S) with
    | none =>
      rw [lookupMethod_of_find_none fd c S M hf]
      simp
    | some t =>
      rw [lookupMethod_of_find fd c S M t hf]
      by_cases hm : ∃ m ∈ t.methods, m.name = M
      · simp only [hm, if_true]
        exact ⟨fun _ => ⟨t, rfl, hm⟩, fun _ => ⟨_, rfl⟩⟩
      · simp only [hm, if_false]
        constructor
        · rintro ⟨f, hf2⟩; cases hf2
        · rintro ⟨s, hs, hsm⟩
          cases hs
          exact absurd hsm hm
  · intro pre s post post2 hpre hs
    have key : ∀ rest : List ServiceDescriptor,
        (pre ++ s :: rest).find? (fun s => s.name == S) = some s := by
      intro rest
      induction pre with
      | nil => simp [hs]
      | cons p ps ih =>
        have hp : p.name ≠ S := hpre p (List.mem_cons_self _ _)
        simp only [List.cons_append, List.find?_cons]
        have : (p.name == S) = false := by simpa using hp
        rw [this]
        exact ih (fun q hq => hpre q (List.mem_cons_of_mem _ hq))
    rw [lookupMethod_of_find _ c S M s (key post), lookupMethod_of_find _ c S M s (key post2)]
  · rfl
  · rfl


/-! ## The call interceptor -/

/-- The loop of `metadata.New`, started from `acc`: the values under `k` are those
of `acc` followed by the values of the entries whose lower-cased key is `k`. -/
theorem metadataNew_fold (toLower : String → String) (m : GoMap String) (acc : MD) (k : String) :
    (m.foldl (fun md kv => Function.update md (toLower kv.1) (md (toLower kv.1) ++ [kv.2])) acc) k
      = acc k ++ (m.filter (fun kv => toLower kv.1 = k)).map Prod.snd := by
  induction m generalizing acc with
  | nil => simp
  | cons kv rest ih =>
    rw [List.foldl_cons, ih]
    by_cases h : toLower kv.1 = k
    · subst h
      simp [List.filter_cons]
    · have h2 : k ≠ toLower kv.1 := fun e => h e.symm
      simp [List.filter_cons, h, Function.update_noteq h2]

/-- The values `metadata.New(m)` holds under `k`. -/
theorem metadataNew_apply (toLower : String → String) (m : GoMap String) (k : String) :
    metadataNew toLower m k = (m.filter (fun kv => toLower kv.1 = k)).map Prod.snd := by
  unfold metadataNew
  rw [metadataNew_fold]
  rfl

/-- In a map (distinct keys) the entries under key `k` are the one value `m[k]`. -/
theorem filter_key_of_nodup (m : GoMap String) (k v : String)
    (hnodup : (m.map Prod.fst).Nodup) (hmem : (k, v) ∈ m) :
    (m.filter (fun kv => kv.1 = k)).map Prod.snd = [v] := by
  induction m with
  | nil => cases hmem
  | cons kv rest ih =>
    rw [List.map_cons, List.nodup_cons] at hnodup
    rcases List.mem_cons.mp hmem with h | h
    · subst h
      have : rest.filter (fun kv => kv.1 = k) = [] := by
        rw [List.filter_eq_nil_iff]
        intro a ha hk
        apply hnodup.1
        have hak : a.1 = k := by simpa using hk
        exact List.mem_map.mpr ⟨a, ha, hak⟩
      simp [List.filter_cons, this]
    · have hne : kv.1 ≠ k := by
        intro e
        apply hnodup.1
        exact List.mem_map.mpr ⟨(k, v), h, e.symm⟩
      simp only [List.filter_cons, hne, decide_False]
      exact ih hnodup.2 h

/-- Every call through the interceptor hands the invoker a context whose outgoing
metadata is `metadata.New(ci.metadata)`, one invoker call per call issued, and
leaves the interceptor as it was. -/
theorem issueCalls_spec (toLower : String → String)
    (ci : ClientInterceptor) (calls : List UnaryCall) :
    (issueCalls toLower ci calls).2 = ci ∧
      (issueCalls toLower ci calls).1.length = calls.length ∧
      ∀ a ∈ (issueCalls toLower ci calls).1,
        ∀ k, a.ctx.outgoingValues k = metadataNew toLower ci.metadata k := by
  induction calls with
  | nil => simp [issueCalls]
  | cons call rest ih =>
    have hself : (ci.UnaryInterceptor toLower call.ctx call.method call.req call.reply call.cc
        call.invoker call.opts).self = ci := by
      unfold ClientInterceptor.UnaryInterceptor
      simp only
      split <;> rfl
    have hinv : (ci.UnaryInterceptor toLower call.ctx call.method call.req call.reply call.cc
        call.invoker call.opts).invoked
        = [{ ctx := NewOutgoingContext call.ctx (metadataNew toLower ci.metadata),
             method := call.method, req := call.req, reply := call.reply, cc := call.cc,
             opts := call.opts }] := by
      unfold ClientInterceptor.UnaryInterceptor
      simp only
      split <;> rfl
    simp only [issueCalls, hself, hinv]
    refine ⟨ih.1, by simp [ih.2.1], ?_⟩
    intro a ha k
    rcases List.mem_append.mp ha with h | h
    · simp only [List.mem_singleton] at h
      subst h
      simp [Context.outgoingValues, NewOutgoingContext]
    · exact ih.2.2 a h k

/-- C6 (as amended): for every metadata map `m` (distinct keys) given at
construction, every lower-casing function the library applies, and every
sequence of calls with arbitrary incoming contexts (outgoing metadata on them
included): the interceptor makes one invoker call per call issued and is the
same afterwards; each context handed to the invoker carries, for every key `k`
of `m`, the value `m[k]` under the lower-cased key of `k`, and under that key
exactly the one value `m[k]`, so the pair exactly once, whenever no other key
of `m` has the same lower-cased form (for a key that is already lower-case this
is the pair `(k, m[k])` unaltered); and it carries nothing under a key that is
not the lower-cased form of a key of `m`. -/
theorem unaryInterceptor_carries_metadata (toLower : String → String)
    (m : GoMap String) (channelKey : String) (calls : List UnaryCall)
    (hkeys : (m.map Prod.fst).Nodup) :
    (issueCalls toLower { metadata := m, channelKey := channelKey } calls).2
        = { metadata := m, channelKey := channelKey } ∧
      (issueCalls toLower { metadata := m, channelKey := channelKey } calls).1.length
        = calls.length ∧
      ∀ a ∈ (issueCalls toLower { metadata := m, channelKey := channelKey } calls).1,
        (∀ k v, (k, v) ∈ m →
          v ∈ a.ctx.outgoingValues (toLower k) ∧
          ((∀ k2 v2, (k2, v2) ∈ m → toLower k2 = toLower k → k2 = k) →
            a.ctx.outgoingValues (toLower k) = [v])) ∧
        (∀ j, (∀ k v, (k, v) ∈ m → toLower k ≠ j) → a.ctx.outgoingValues j = []) := by
  obtain ⟨h1, h2, h3⟩ :=
    issueCalls_spec toLower { metadata := m, channelKey := channelKey } calls
  refine ⟨h1, h2, ?_⟩
  intro a ha
  refine ⟨?_, ?_⟩
  · intro k v hkv
    rw [h3 a ha, metadataNew_apply]
    refine ⟨List.mem_map.mpr ⟨(k, v), List.mem_filter.mpr ⟨hkv, by simp⟩, rfl⟩, ?_⟩
    intro hinj
    have hf : m.filter (fun kv => toLower kv.1 = toLower k) = m.filter (fun kv => kv.1 = k) := by
      apply List.filter_congr
      intro x hx
      by_cases hxk : x.1 = k
      · simp [hxk]
      · have : toLower x.1 ≠ toLower k := fun e => hxk (hinj x.1 x.2 hx e)
        simp [hxk, this]
    rw [hf]
    exact filter_key_of_nodup m k v hkeys hkv
  · intro j hj
    rw [h3 a ha, metadataNew_apply]
    have hf : m.filter (fun kv => toLower kv.1 = j) = [] := by
      rw [List.filter_eq_nil_iff]
      intro x hx hxj
      exact hj x.1 x.2 hx (by simpa using hxj)
    rw [hf]
    rfl

/-! ## Evaluations at concrete inputs -/

/-- C9: on the fresh registry, `NewGRPCClient` for the endpoint
`10.255.255.1:50051`, to which no connection can be established within the
3-second context, returns a client and no connection error, and the registry
afterwards maps the endpoint to that client. -/
theorem newGRPCClient_registers_unreachable_endpoint :
    unreachableEnv.reachable "10.255.255.1:50051" = false ∧
      freshWorld.grpcChannels "10.255.255.1:50051" = none ∧
      (NewGRPCClient unreachableEnv freshWorld "10.255.255.1:50051" false 0
        (some tokenOptions)).1 = Outcome.ok strandedClient ∧
      (NewGRPCClient unreachableEnv freshWorld "10.255.255.1:50051" false 0
        (some tokenOptions)).2.grpcChannels "10.255.255.1:50051" = some strandedClient :=
  ⟨rfl, rfl, rfl, rfl⟩

/-- C7: on the fresh registry, `NewGRPCClient(E, false, 0, options)` panics at the
unchecked assertion of client.go line 108 when `options` is nil, when it is the
empty map, and when its `metadata` entry is not a string-to-string map; no
client and no error value is returned, and nothing was dialled. -/
theorem newGRPCClient_faults_without_metadata :
    NewGRPCClient reachableEnv freshWorld "localhost:50051" false 0 none
        = (Outcome.fault "interface conversion: interface value is not map[string]string",
            freshWorld) ∧
      NewGRPCClient reachableEnv freshWorld "localhost:50051" false 0 (some [])
        = (Outcome.fault "interface conversion: interface value is not map[string]string",
            freshWorld) ∧
      NewGRPCClient reachableEnv freshWorld "localhost:50051" false 0
          (some [("metadata", Value.str "x-token=abc")])
        = (Outcome.fault "interface conversion: interface value is not map[string]string",
            freshWorld) :=
  ⟨rfl, rfl, rfl⟩

/-- C2: on a registry that holds the open connection `1` for `localhost:50051`,
`GetGRPCMethod` for `Echo`/`Say` returns an invoker bound to the registered
client, and on return connection `1` is closed by the deferred `Close`; the
registry still maps the endpoint to that client, so the next acquisition gets
the closed connection. The connection is closed on the error paths too. -/
theorem getGRPCMethod_closes_connection :
    registeredWorld.grpcChannels "localhost:50051" = some echoClient ∧
      registeredWorld.isOpen 1 = true ∧
      (GetGRPCMethod reachableEnv (servingEnv echoFile) registeredWorld (uriFor "Echo" "Say")).1
        = Outcome.ok { client := echoClient, service := "Echo", method := "Say" } ∧
      (GetGRPCMethod reachableEnv (servingEnv echoFile) registeredWorld
        (uriFor "Echo" "Say")).2.isOpen 1 = false ∧
      (NewGRPCClient reachableEnv
        (GetGRPCMethod reachableEnv (servingEnv echoFile) registeredWorld (uriFor "Echo" "Say")).2
        "localhost:50051" false 0 (some tokenOptions)).1 = Outcome.ok echoClient ∧
      (GetGRPCMethod reachableEnv (servingEnv echoFile) registeredWorld
        (uriFor "Echo" "Shout")).2.isOpen 1 = false :=
  ⟨rfl, rfl, rfl, rfl, rfl, rfl⟩

/-- C8: with a well-formed `uriInfo` and a registered client, `GetGRPCMethod`
panics when the reflection response is an error response (nil
file-descriptor response) and when the file-descriptor response carries an
empty list of blobs (index zero out of range); neither an invoker nor an error
value is returned. -/
theorem getGRPCMethod_faults_on_missing_blob :
    (GetGRPCMethod reachableEnv errorResponseEnv registeredWorld (uriFor "Missing" "Say")).1
        = Outcome.fault "invalid memory address or nil pointer dereference" ∧
      (GetGRPCMethod reachableEnv emptyBlobsEnv registeredWorld (uriFor "Echo" "Say")).1
        = Outcome.fault "index out of range [0] with length 0" :=
  ⟨rfl, rfl⟩

/-- Witness of C3: `Echo`/`Say` resolved against a remote side that declares
them, through the registered client on connection `1`. -/
theorem getGRPCMethod_found_witness :
    fetchFileDescriptor (servingEnv echoFile) echoClient "Echo" = Outcome.ok echoFile ∧
      ∃ f : MethodFunc,
        (GetGRPCMethod reachableEnv (servingEnv echoFile) registeredWorld (uriFor "Echo" "Say")).1
          = Outcome.ok f ∧
        ∀ (invoke : InvokeRecord → Value × Option String) (ctx : Context) (req : Value)
          (opts : List Nat),
          f.call invoke ctx req opts =
            (Outcome.ok (invoke
                { conn := 1, ctx := ctx, path := "/" ++ "Echo" ++ "/" ++ "Say", req := req,
                  opts := opts }),
              [{ conn := 1, ctx := ctx, path := "/" ++ "Echo" ++ "/" ++ "Say", req := req,
                 opts := opts }]) :=
  ⟨rfl, getGRPCMethod_found reachableEnv (servingEnv echoFile) registeredWorld
    (uriFor "Echo" "Say") "localhost:50051" false "Echo" "Say" echoClient echoFile 1
    rfl rfl rfl rfl rfl rfl rfl (by decide)
    ⟨{ name := "Echo", methods := [{ name := "Say" }] }, by simp [echoFile], rfl,
      { name := "Say" }, by simp, rfl⟩⟩

/-- Witness of C4: `Echo`/`Shout` against a remote side that declares `Echo`
with the method `Say` only. -/
theorem getGRPCMethod_not_found_witness :
    fetchFileDescriptor (servingEnv echoFile) echoClient "Echo" = Outcome.ok echoFile ∧
      (GetGRPCMethod reachableEnv (servingEnv echoFile) registeredWorld (uriFor "Echo" "Shout")).1
        = Outcome.error (notFoundMessage "Shout" "Echo") ∧
      Mentions (notFoundMessage "Shout" "Echo") "Echo" ∧
      Mentions (notFoundMessage "Shout" "Echo") "Shout" :=
  ⟨rfl, getGRPCMethod_not_found reachableEnv (servingEnv echoFile) registeredWorld
    (uriFor "Echo" "Shout") "localhost:50051" false "Echo" "Shout" echoClient echoFile
    rfl rfl rfl rfl rfl rfl (Or.inr (by simp [echoFile]))⟩

/-- C5, counterexample: for `Echo`/`Shout`, a remote side that declares `Echo`
without `Shout` and a remote side that declares no service at all get the same
error, and the message for the missing method names the service `Echo`. -/
theorem getGRPCMethod_same_error_for_missing_service :
    (GetGRPCMethod reachableEnv (servingEnv echoFile) registeredWorld (uriFor "Echo" "Shout")).1
        = Outcome.error "메서드 Shout를 서비스 Echo에서 찾을 수 없습니다" ∧
      (GetGRPCMethod reachableEnv (servingEnv { services := [] }) registeredWorld
          (uriFor "Echo" "Shout")).1
        = (GetGRPCMethod reachableEnv (servingEnv echoFile) registeredWorld
          (uriFor "Echo" "Shout")).1 ∧
      Mentions "메서드 Shout를 서비스 Echo에서 찾을 수 없습니다" "Echo" :=
  ⟨rfl, rfl, ⟨"메서드 Shout를 서비스 ", "에서 찾을 수 없습니다", rfl⟩⟩

/-- Witness of C5 as amended, at `Echo`/`Shout`. -/
theorem getGRPCMethod_missing_method_error_witness :
    (∃ s ∈ echoFile.services, s.name = "Echo") ∧
      (GetGRPCMethod reachableEnv (servingEnv echoFile) registeredWorld (uriFor "Echo" "Shout")).1
        = Outcome.error (notFoundMessage "Shout" "Echo") ∧
      (GetGRPCMethod reachableEnv (servingEnv { services := [] }) registeredWorld
          (uriFor "Echo" "Shout")).1
        = (GetGRPCMethod reachableEnv (servingEnv echoFile) registeredWorld
          (uriFor "Echo" "Shout")).1 :=
  ⟨⟨_, List.mem_singleton.mpr rfl, rfl⟩,
    (getGRPCMethod_missing_method_error reachableEnv (servingEnv echoFile) registeredWorld
      (uriFor "Echo" "Shout") "localhost:50051" false "Echo" "Shout" echoClient echoFile
      rfl rfl rfl rfl rfl rfl ⟨_, List.mem_singleton.mpr rfl, rfl⟩ (by simp [echoFile])).1,
    (getGRPCMethod_missing_method_error reachableEnv (servingEnv echoFile) registeredWorld
      (uriFor "Echo" "Shout") "localhost:50051" false "Echo" "Shout" echoClient echoFile
      rfl rfl rfl rfl rfl rfl ⟨_, List.mem_singleton.mpr rfl, rfl⟩ (by simp [echoFile])).2.2.2
      (servingEnv { services := [] }) { services := [] } rfl (by simp)⟩

/-- C6, counterexample: with the metadata `X-Token: abc` the context handed to
the invoker carries nothing under the key `X-Token`; the value travels under
the altered key `x-token`. With the metadata `A: x, a: x`, whose two keys have
the same lower-cased form, the pair `(a, x)` is carried twice. -/
theorem unaryInterceptor_lowercases_key :
    ((ClientInterceptor.UnaryInterceptor asciiLower
        { metadata := [("X-Token", "abc")], channelKey := "localhost:50051" }
        background "/Echo/Say" (Value.str "ping") Value.null (some 1) (fun _ => none)
        []).invoked.map
          (fun a => (a.ctx.outgoingValues "X-Token", a.ctx.outgoingValues "x-token")))
        = [([], ["abc"])] ∧
      ((ClientInterceptor.UnaryInterceptor asciiLower
        { metadata := [("A", "x"), ("a", "x")], channelKey := "localhost:50051" }
        background "/Echo/Say" (Value.str "ping") Value.null (some 1) (fun _ => none)
        []).invoked.map (fun a => a.ctx.outgoingValues "a"))
        = [["x", "x"]] :=
  ⟨rfl, rfl⟩

/-- Witness of C6 as amended: two calls through an interceptor with the
metadata `X-Token: a, k2: v2`, the second on a context that already has
outgoing metadata; `k2: v2` is carried exactly once unaltered, `a` exactly once
under `x-token`. -/
theorem unaryInterceptor_carries_metadata_witness :
    ([("X-Token", "a"), ("k2", "v2")].map Prod.fst).Nodup ∧
      ∀ a ∈ (issueCalls asciiLower
          { metadata := [("X-Token", "a"), ("k2", "v2")], channelKey := "localhost:50051" }
          [pingCall background, pingCall taggedContext]).1,
        a.ctx.outgoingValues "k2" = ["v2"] ∧ a.ctx.outgoingValues "x-token" = ["a"] ∧
          a.ctx.outgoingValues "X-Token" = [] :=
  ⟨by decide, fun a ha =>
    ⟨(((unaryInterceptor_carries_metadata asciiLower [("X-Token", "a"), ("k2", "v2")]
        "localhost:50051" _ (by decide)).2.2 a ha).1 "k2" "v2" (by simp)).2
        (by
          intro k2 v2 h hl
          simp only [List.mem_cons, Prod.mk.injEq, List.mem_singleton, List.not_mem_nil,
            or_false] at h
          rcases h with h | h
          · rw [h.1] at hl; exact absurd hl (by decide)
          · exact h.1),
      (((unaryInterceptor_carries_metadata asciiLower [("X-Token", "a"), ("k2", "v2")]
        "localhost:50051" _ (by decide)).2.2 a ha).1 "X-Token" "a" (by simp)).2
        (by
          intro k2 v2 h hl
          simp only [List.mem_cons, Prod.mk.injEq, List.mem_singleton, List.not_mem_nil,
            or_false] at h
          rcases h with h | h
          · exact h.1
          · rw [h.1] at hl; exact absurd hl (by decide)),
      ((unaryInterceptor_carries_metadata asciiLower [("X-Token", "a"), ("k2", "v2")]
        "localhost:50051" _ (by decide)).2.2 a ha).2 "X-Token"
        (by
          intro k v h
          simp only [List.mem_cons, Prod.mk.injEq, List.mem_singleton, List.not_mem_nil,
            or_false] at h
          rcases h with h | h
          · rw [h.1]; decide
          · rw [h.1]; decide)⟩⟩

end WebbServer
